import Mathlib

/-!
Shallow embedding of the session / prompt-triage core of the `mcp-chatbot`
repository, together with proofs settling the specification claims.

Source files embedded:
* `src/api/utils/prompt_parser.py`  (class `PromptParser`, dataclass `ParsedPrompt`)
* `src/api/utils/session_manager.py` (dataclass `Session`, class `SessionManager`)
* `src/api/utils/chat_handler.py`   (class `MCPChatHandler`)

Modelling conventions:
* Python strings are modelled as `List Char` (`String.toList` at the boundary).
  Case folding and whitespace are modelled on ASCII, which covers every
  character the source's fixed keyword/pattern lists use.
* Python `datetime` instants are modelled as `Int` seconds; `timedelta(minutes=m)`
  is `60 * m` seconds.  `uuid.uuid4()` freshness is modelled by a counter.
* Python `dict` is modelled as an insertion-ordered association list.
* Code that can raise (`tasks[0]` on an empty list, attribute access on `None`)
  is modelled with `Option`: `none` is an escaped exception.
-/

namespace MCPChatbot

/-! ### ASCII character helpers (model of `str.lower`, `str.strip`, `str.split`) -/

/-- ASCII whitespace, as recognised by Python `str.strip` / `str.split` on the
inputs this code base handles. -/
def isWs (c : Char) : Bool :=
  c = ' ' || c = '\t' || c = '\n' || c = '\r' || c = '\x0b' || c = '\x0c'

/-- ASCII lower-casing, the fragment of `str.lower` / `re.IGNORECASE` exercised
by the source's keyword lists (which are all ASCII). -/
def lowerC (c : Char) : Char :=
  if 'A' ≤ c && c ≤ 'Z' then Char.ofNat (c.toNat + 32) else c

/-- Drop leading ASCII whitespace. -/
def dropWs : List Char → List Char
  | [] => []
  | c :: cs => if isWs c then dropWs cs else c :: cs

/-- Python `str.strip()`. -/
def pyStrip (s : List Char) : List Char :=
  ((dropWs s).reverse |> dropWs).reverse

/-- Auxiliary for `pySplit`: accumulate the current word (reversed). -/
def pySplitAux : List Char → List Char → List (List Char)
  | [], [] => []
  | [], cur => [cur.reverse]
  | c :: cs, cur =>
    if isWs c then
      if cur.isEmpty then pySplitAux cs [] else cur.reverse :: pySplitAux cs []
    else
      pySplitAux cs (c :: cur)

/-- Python `str.split()` (no argument): split on whitespace runs, no empty
fields. -/
def pySplit (s : List Char) : List (List Char) :=
  pySplitAux s []

/-- Test whether `pat` matches at the very start of `hay` (exact characters). -/
def leadsWith : List Char → List Char → Bool
  | [], _ => true
  | _ :: _, [] => false
  | p :: ps, c :: cs => p = c && leadsWith ps cs

/-- Python `pat in hay`: substring containment. -/
def hasSub (pat : List Char) : List Char → Bool
  | [] => leadsWith pat []
  | c :: cs => leadsWith pat (c :: cs) || hasSub pat cs

/-- Substring containment after lower-casing the haystack, the shape of every
`keyword in text.lower()` test in the source (keywords are already
lower-case). -/
def hasSubLower (pat : String) (hay : List Char) : Bool :=
  hasSub pat.toList (hay.map lowerC)

end MCPChatbot

namespace MCPChatbot

/-! ### The separator regexes of `PromptParser` (`src/api/utils/prompt_parser.py`)

The four `self.separators` patterns are alternations of *literals* and of
`punctuation  \s*  literal` sequences.  `RTok.ws` models `\s*`; since in every
pattern `\s*` is immediately followed by a literal starting with a non-space
character, greedy matching without backtracking coincides with the regex
semantics. `re.IGNORECASE` is modelled by lower-casing the scanned text. -/

inductive RTok where
  | lit : List Char → RTok
  | ws : RTok
deriving DecidableEq

abbrev RAlt := List RTok
abbrev RPat := List RAlt

/-- Consume a case-insensitive literal from the head of the input. -/
def stripLit : List Char → List Char → Option (List Char)
  | [], s => some s
  | _ :: _, [] => none
  | p :: ps, c :: cs => if lowerC c = p then stripLit ps cs else none

/-- Match one alternative at the head of the input, returning the rest. -/
def matchAlt : RAlt → List Char → Option (List Char)
  | [], s => some s
  | RTok.lit l :: ts, s =>
    match stripLit l s with
    | some s' => matchAlt ts s'
    | none => none
  | RTok.ws :: ts, s => matchAlt ts (dropWs s)

/-- Match a pattern (ordered alternation, first alternative wins, as in
Python's `re`) at the head of the input. -/
def matchPatHere : RPat → List Char → Option (List Char)
  | [], _ => none
  | alt :: alts, s =>
    match matchAlt alt s with
    | some s' => some s'
    | none => matchPatHere alts s

/-- Fuelled scanner realising `re.split(pat, s)`: cut at each leftmost match
and continue after it.  `fuel ≥ s.length` always suffices because every
alternative of every source pattern consumes at least one character. -/
def splitRun (p : RPat) : Nat → List Char → List Char → List (List Char)
  | _, acc, [] => [acc.reverse]
  | 0, acc, s => [acc.reverse ++ s]
  | fuel + 1, acc, c :: cs =>
    match matchPatHere p (c :: cs) with
    | some rest => acc.reverse :: splitRun p fuel [] rest
    | none => splitRun p fuel (c :: acc) cs

/-- Model of `re.split(pat, s, flags=re.IGNORECASE)` for the source's patterns. -/
def reSplit (p : RPat) (s : List Char) : List (List Char) :=
  splitRun p s.length [] s

/-- Literal token from a string. -/
def litT (s : String) : RTok := RTok.lit s.toList

/-- ASCII apostrophe, written by code point to keep the source digestible. -/
def apos : Char := Char.ofNat 39

/-- Pattern 1: `(?:and then|then|also|additionally|furthermore)`. -/
def sepPat1 : RPat :=
  [[litT "and then"], [litT "then"], [litT "also"], [litT "additionally"],
   [litT "furthermore"]]

/-- Pattern 2: `(?:,\s*and|;\s*and|\.\s*and)`. -/
def sepPat2 : RPat :=
  [[litT ",", RTok.ws, litT "and"], [litT ";", RTok.ws, litT "and"],
   [litT ".", RTok.ws, litT "and"]]

/-- Pattern 3: `(?:by the way|oh and|one more thing)`. -/
def sepPat3 : RPat :=
  [[litT "by the way"], [litT "oh and"], [litT "one more thing"]]

/-- Pattern 4: `(?:\.\s*my name is|\.\s*i'm|\.\s*btw)`. -/
def sepPat4 : RPat :=
  [[litT ".", RTok.ws, litT "my name is"],
   [litT ".", RTok.ws, RTok.lit (['i', apos, 'm'])],
   [litT ".", RTok.ws, litT "btw"]]

/-- The list `self.separators`, in source order. -/
def separators : List RPat := [sepPat1, sepPat2, sepPat3, sepPat4]

/-- Embeds `PromptParser._split_by_separators`: apply every separator pattern to every
current segment in turn, then strip segments and drop the empty ones. -/
def split_by_separators (text : List Char) : List (List Char) :=
  let segments := separators.foldl (fun segs p => (segs.map (reSplit p)).flatten) [text]
  (segments.map pyStrip).filter (fun s => !s.isEmpty)

/-! ### Tasks and `parse_prompt` (`src/api/utils/prompt_parser.py`) -/

/-- Embeds `PromptComplexity` (enum). -/
inductive PromptComplexity where
  | SIMPLE | COMPOUND | COMPLEX | CONTEXTUAL
deriving DecidableEq, Repr

/-- One task dictionary produced by `PromptParser._extract_tasks`. -/
structure Task where
  id : Nat
  text : List Char
  type : String
  priority : Nat
  estimated_complexity : String
deriving DecidableEq, Repr

/-- Embeds `ParsedPrompt` (dataclass). -/
structure ParsedPrompt where
  original_text : List Char
  complexity : PromptComplexity
  tasks : List Task
  requires_session_context : Bool
  estimated_tokens : Nat
deriving DecidableEq, Repr

/-- Embeds `PromptParser._identify_task_type`: first matching keyword category wins. -/
def identify_task_type (text : List Char) : String :=
  if hasSubLower "implement" text || hasSubLower "create" text ||
     hasSubLower "build" text || hasSubLower "make" text then "creation"
  else if hasSubLower "explain" text || hasSubLower "tell me" text ||
     hasSubLower "how to" text then "explanation"
  else if hasSubLower "find" text || hasSubLower "search" text ||
     hasSubLower "look for" text then "search"
  else if hasSubLower "recipe" text || hasSubLower "how to make" text ||
     hasSubLower "cook" text then "recipe"
  else if hasSubLower "close" text || hasSubLower "end" text ||
     hasSubLower "stop" text || hasSubLower "exit" text then "session_control"
  else "general"

/-- Embeds `PromptParser._get_task_priority`: `index + 1`, decremented (floored at 1)
when an urgency keyword occurs. -/
def get_task_priority (task_text : List Char) (index : Nat) : Nat :=
  let base_priority := index + 1
  if hasSubLower "urgent" task_text || hasSubLower "important" task_text ||
     hasSubLower "first" task_text || hasSubLower "priority" task_text then
    max 1 (base_priority - 1)
  else base_priority

/-- Embeds `PromptParser._estimate_task_complexity`: thresholds on `len(task_text)`. -/
def estimate_task_complexity (task_text : List Char) : String :=
  if task_text.length < 50 then "low"
  else if task_text.length < 150 then "medium"
  else "high"

/-- Embeds `PromptParser._extract_tasks`. -/
def extract_tasks (text : List Char) : List Task :=
  (split_by_separators text).enum.map fun p =>
    { id := p.1 + 1
      text := pyStrip p.2
      type := identify_task_type p.2
      priority := get_task_priority p.2 p.1
      estimated_complexity := estimate_task_complexity p.2 }

/-- Embeds `PromptParser._assess_complexity`. -/
def assess_complexity (tasks : List Task) : PromptComplexity :=
  if tasks.length = 1 then PromptComplexity.SIMPLE
  else if tasks.length = 2 then
    if (tasks.map Task.type).dedup.length = 1 then PromptComplexity.COMPOUND
    else PromptComplexity.COMPLEX
  else PromptComplexity.COMPLEX

/-- The fixed continuation-cue list of `PromptParser._needs_session_context`. -/
def context_indicators : List String :=
  ["continue", "also", "additionally", "furthermore",
   "my previous", "earlier", "before", "last time"]

/-- Embeds `PromptParser._needs_session_context`. -/
def needs_session_context (text : List Char) : Bool :=
  context_indicators.any fun ind => hasSubLower ind text

/-- Embeds `PromptParser.parse_prompt`.  The token estimate embeds Python's
`int(len(text.split()) * 1.3)`: `1.3` rounds to a double slightly above
`13/10`, and for every word count below `10^15` the truncated product equals
`⌊13 · n / 10⌋`, which is the `Nat` division used here. -/
def parse_prompt (input : String) : ParsedPrompt :=
  let text := pyStrip input.toList
  let tasks := extract_tasks text
  let complexity := assess_complexity tasks
  let requires_context := needs_session_context text
  let estimated_tokens := 13 * (pySplit text).length / 10
  { original_text := text
    complexity := complexity
    tasks := tasks
    requires_session_context := requires_context
    estimated_tokens := estimated_tokens }

/-- The fixed control-phrase list of `PromptParser.is_session_command`. -/
def session_commands : List String :=
  ["close session", "end session", "logout", "exit",
   "close chat", "end chat", "stop", "quit"]

/-- Embeds `PromptParser.is_session_command`. -/
def is_session_command (text : List Char) : Bool :=
  session_commands.any fun cmd => hasSub cmd.toList (pyStrip (text.map lowerC))

/-! ### Sessions (`src/api/utils/session_manager.py`)

`datetime.now()` is passed in explicitly as `now : Int` (seconds).  `uuid.uuid4()`
is modelled by the `next_id` counter, which is what freshness amounts to here.
The `context` dict values (`Any`) are modelled by a small sum covering what the
chat handler actually stores. -/

/-- Embeds `SessionState` (enum). -/
inductive SessionState where
  | ACTIVE | IDLE | CLOSING | CLOSED
deriving DecidableEq, Repr

/-- A value stored in `Session.context` by the chat handler. -/
inductive CtxVal where
  | task : Task → CtxVal
  | tasks : List Task → CtxVal
  | str : String → CtxVal
deriving DecidableEq, Repr

/-- Embeds `Session` (dataclass). -/
structure Session where
  id : Nat
  user_id : String
  created_at : Int
  last_activity : Int
  state : SessionState
  context : List (String × CtxVal)
  message_count : Nat := 0
  timeout_minutes : Nat := 30
deriving DecidableEq, Repr

/-- Embeds `Session.is_expired`: `datetime.now() - last_activity > timedelta(minutes=timeout_minutes)`. -/
def Session.is_expired (now : Int) (s : Session) : Bool :=
  now - s.last_activity > 60 * (s.timeout_minutes : Int)

/-- Embeds `Session.update_activity`. -/
def Session.update_activity (now : Int) (s : Session) : Session :=
  { s with last_activity := now, message_count := s.message_count + 1 }

/-- Overwrite-or-append assignment on an insertion-ordered dict. -/
def ctxSet (k : String) (v : CtxVal) : List (String × CtxVal) → List (String × CtxVal)
  | [] => [(k, v)]
  | p :: ps => if p.1 = k then (k, v) :: ps else p :: ctxSet k v ps

/-- The mutable state of a `SessionManager`: its `sessions` dict plus the id
source standing in for `uuid.uuid4()`. -/
structure ManagerState where
  sessions : List (Nat × Session)
  next_id : Nat
deriving DecidableEq, Repr

/-- Embeds `SessionManager.__init__`: empty store. -/
def initManager : ManagerState := { sessions := [], next_id := 0 }

/-- Embeds `SessionManager.get_session`: pure dict lookup. -/
def get_session (session_id : Nat) (st : ManagerState) : Option Session :=
  (st.sessions.find? fun p => p.1 = session_id).map Prod.snd

/-- Embeds `SessionManager.create_session`: fresh id, ACTIVE session with empty
context, inserted at the end of the dict (Python insertion order). -/
def create_session (now : Int) (user_id : String) (st : ManagerState) :
    Nat × ManagerState :=
  let session_id := st.next_id
  let session : Session :=
    { id := session_id, user_id := user_id, created_at := now,
      last_activity := now, state := SessionState.ACTIVE, context := [] }
  (session_id, { sessions := st.sessions ++ [(session_id, session)],
                 next_id := session_id + 1 })

/-- Embeds `SessionManager.close_session`: `None`-check, then in one synchronous step
the session object is driven CLOSING → cleared context → CLOSED and the entry
is deleted from the dict.  The write-back followed by deletion mirrors that the
mutation and the removal happen in the same call, with no suspension point
between them. -/
def close_session (session_id : Nat) (st : ManagerState) : Bool × ManagerState :=
  match get_session session_id st with
  | none => (false, st)
  | some _ =>
    let written := st.sessions.map fun p =>
      if p.1 = session_id then
        (p.1, { p.2 with state := SessionState.CLOSED, context := [] })
      else p
    (true, { st with sessions := written.filter fun p => p.1 ≠ session_id })

/-- Close a list of ids in order, counting the successful closes; the loop body
shared by `close_user_sessions` and `cleanup_expired_sessions`. -/
def closeMany : List Nat → ManagerState → Nat × ManagerState
  | [], st => (0, st)
  | sid :: sids, st =>
    let r := close_session sid st
    let rest := closeMany sids r.2
    (rest.1 + (if r.1 then 1 else 0), rest.2)

/-- Embeds `SessionManager.close_user_sessions`: snapshot the matching ids, then close
each. -/
def close_user_sessions (user_id : String) (st : ManagerState) : Nat × ManagerState :=
  let sessions_to_close :=
    (st.sessions.filter fun p => p.2.user_id = user_id).map Prod.fst
  closeMany sessions_to_close st

/-- Embeds `SessionManager.cleanup_expired_sessions`: snapshot the expired ids, then
close each. -/
def cleanup_expired_sessions (now : Int) (st : ManagerState) : Nat × ManagerState :=
  let expired_sessions :=
    (st.sessions.filter fun p => p.2.is_expired now).map Prod.fst
  closeMany expired_sessions st

/-- Embeds `SessionManager.get_session_count`. -/
def get_session_count (st : ManagerState) : Nat :=
  st.sessions.length

/-! ### Chat coordination (`src/api/utils/chat_handler.py`)

`sorted(tasks, key=lambda x: x['priority'])` is Python's stable sort.  A stable
sort by key is extensionally unique, so it is embedded as the stable insertion
sort `sortTasksByPriority` below (an element is inserted *before* the equal-key
elements of the already-sorted tail, which all came after it originally). -/

/-- Insert `t` into a priority-sorted list, before any task of equal priority. -/
def insertByPriority (t : Task) : List Task → List Task
  | [] => [t]
  | u :: us =>
    if t.priority ≤ u.priority then t :: u :: us else u :: insertByPriority t us

/-- Stable sort by ascending `priority`: the embedding of
`sorted(parsed_prompt.tasks, key=lambda x: x['priority'])`. -/
def sortTasksByPriority : List Task → List Task
  | [] => []
  | t :: ts => insertByPriority t (sortTasksByPriority ts)

/-- The response dictionaries the handlers return, as a tagged union (the
fields kept are those the claims and the spec talk about). -/
inductive Response where
  | simple_response (task : Task)
  | compound_response (tasks : List Task)
  | complex_response (tasks : List Task)
  | session_closed (closed : Bool)
  | unknown_command
deriving DecidableEq, Repr

/-- Embeds `MCPChatHandler._handle_simple_prompt`: reads `parsed_prompt.tasks[0]`,
which raises `IndexError` (modelled as `none`) on an empty task list. -/
def handle_simple_prompt (session : Session) (parsed_prompt : ParsedPrompt) :
    Option (Session × Response) :=
  match parsed_prompt.tasks.head? with
  | none => none
  | some task =>
    let ctx := ctxSet "last_prompt_type" (CtxVal.str "simple")
      (ctxSet "last_task" (CtxVal.task task) session.context)
    some ({ session with context := ctx }, Response.simple_response task)

/-- Embeds `MCPChatHandler._handle_compound_prompt`. -/
def handle_compound_prompt (session : Session) (parsed_prompt : ParsedPrompt) :
    Session × Response :=
  let ctx := ctxSet "last_prompt_type" (CtxVal.str "compound")
    (ctxSet "last_tasks" (CtxVal.tasks parsed_prompt.tasks) session.context)
  ({ session with context := ctx }, Response.compound_response parsed_prompt.tasks)

/-- Embeds `MCPChatHandler._handle_complex_prompt`: sort by priority, store, answer. -/
def handle_complex_prompt (session : Session) (parsed_prompt : ParsedPrompt) :
    Session × Response :=
  let sorted_tasks := sortTasksByPriority parsed_prompt.tasks
  let ctx := ctxSet "last_prompt_type" (CtxVal.str "complex")
    (ctxSet "last_tasks" (CtxVal.tasks sorted_tasks) session.context)
  ({ session with context := ctx }, Response.complex_response sorted_tasks)

/-- Embeds `MCPChatHandler._handle_by_complexity`: SIMPLE and COMPOUND have their own
handlers, everything else falls to the complex handler. -/
def handle_by_complexity (session : Session) (parsed_prompt : ParsedPrompt) :
    Option (Session × Response) :=
  match parsed_prompt.complexity with
  | PromptComplexity.SIMPLE => handle_simple_prompt session parsed_prompt
  | PromptComplexity.COMPOUND => some (handle_compound_prompt session parsed_prompt)
  | _ => some (handle_complex_prompt session parsed_prompt)

/-- Embeds `MCPChatHandler._handle_session_command`: a close-family keyword closes the
session, anything else answers `unknown_command`.  Total. -/
def handle_session_command (session_id : Nat) (message : String)
    (st : ManagerState) : Response × ManagerState :=
  let message_lower := pyStrip (message.toList.map lowerC)
  if hasSub "close".toList message_lower || hasSub "end".toList message_lower ||
     hasSub "logout".toList message_lower || hasSub "exit".toList message_lower ||
     hasSub "quit".toList message_lower then
    let r := close_session session_id st
    (Response.session_closed r.1, r.2)
  else
    (Response.unknown_command, st)

/-- The envelope `MCPChatHandler.handle_message` returns on the normal path. -/
structure Envelope where
  session_id : Nat
  user_id : String
  response : Response
  complexity : PromptComplexity
  task_count : Nat
  requires_context : Bool
  estimated_tokens : Nat
  message_count : Nat
deriving DecidableEq, Repr

/-- The two result shapes of `MCPChatHandler.handle_message`. -/
inductive HandleResult where
  | command (r : Response)
  | normal (e : Envelope)
deriving DecidableEq, Repr

/-- Embeds the body of `MCPChatHandler.handle_message` from the point where a
session object is in hand: update activity, parse, dispatch by complexity,
write the mutated session back, and assemble the envelope.  `none` models an
escaped exception (`tasks[0]` on an empty task list in the SIMPLE branch). -/
def handle_resolved (now : Int) (user_id : String) (session_id : Nat)
    (message : String) (st : ManagerState) (session0 : Session) :
    Option (HandleResult × ManagerState) :=
  let session := session0.update_activity now
  let sess1 := st.sessions.map fun p =>
    if p.1 = session_id then (p.1, session) else p
  let st1 : ManagerState := { st with sessions := sess1 }
  let parsed_prompt := parse_prompt message
  match handle_by_complexity session parsed_prompt with
  | none => none
  | some sr =>
    let sess2 := st1.sessions.map fun p =>
      if p.1 = session_id then (p.1, sr.1) else p
    let st2 : ManagerState := { st1 with sessions := sess2 }
    some (HandleResult.normal
      { session_id := session_id
        user_id := user_id
        response := sr.2
        complexity := parsed_prompt.complexity
        task_count := parsed_prompt.tasks.length
        requires_context := parsed_prompt.requires_session_context
        estimated_tokens := parsed_prompt.estimated_tokens
        message_count := sr.1.message_count }, st2)

/-- Embeds the entry point `MCPChatHandler.handle_message`: session-command
short circuit, then fetch-or-create-and-refetch, then `handle_resolved`
above (the body after the session is in hand). -/
def handle_message (now : Int) (user_id : String) (session_id : Nat)
    (message : String) (st : ManagerState) :
    Option (HandleResult × ManagerState) :=
  if is_session_command message.toList then
    let r := handle_session_command session_id message st
    some (HandleResult.command r.1, r.2)
  else
    match get_session session_id st with
    | some session0 => handle_resolved now user_id session_id message st session0
    | none =>
      let created := create_session now user_id st
      match get_session created.1 created.2 with
      | none => none
      | some session0 =>
        handle_resolved now user_id created.1 message created.2 session0

/-! ### Observables used by the claims -/

/-- Does pattern `p` match at some position of `s`?  This is what
`re.search` would report, and a split changes its input exactly when some
separator pattern matches somewhere. -/
def matchesSomewhere (p : RPat) : List Char → Bool
  | [] => (matchPatHere p []).isSome
  | c :: cs => (matchPatHere p (c :: cs)).isSome || matchesSomewhere p cs

/-- Some separator pattern of the source occurs somewhere in `s`. -/
def containsSeparator (s : List Char) : Bool :=
  separators.any fun p => matchesSomewhere p s

/-- One Session Store operation, as enumerated by claim C6. -/
inductive MOp where
  | create (now : Int) (user_id : String)
  | get (session_id : Nat)
  | close (session_id : Nat)
  | closeUser (user_id : String)
  | cleanup (now : Int)

/-- State effect of one Session Store operation (return values projected away;
`get` is a pure lookup). -/
def applyOp : MOp → ManagerState → ManagerState
  | MOp.create now uid, st => (create_session now uid st).2
  | MOp.get _, st => st
  | MOp.close sid, st => (close_session sid st).2
  | MOp.closeUser uid, st => (close_user_sessions uid st).2
  | MOp.cleanup now, st => (cleanup_expired_sessions now st).2

/-- Run a sequence of Session Store operations. -/
def runOps (ops : List MOp) (st : ManagerState) : ManagerState :=
  ops.foldl (fun s op => applyOp op s) st

/-- Invariant of claim C6: no session reachable from the live map is CLOSED. -/
def NoClosedInMap (st : ManagerState) : Prop :=
  ∀ p ∈ st.sessions, p.2.state ≠ SessionState.CLOSED

/-- The live map's keys are pairwise distinct (Python dicts guarantee this;
here it is an invariant of the reachable states). -/
def KeysNodup (st : ManagerState) : Prop :=
  (st.sessions.map Prod.fst).Nodup

/-! ### Sample values used by witness statements -/

/-- A minimal task with a chosen priority. -/
def sampleTask (pr : Nat) : Task :=
  { id := 1, text := [], type := "general", priority := pr,
    estimated_complexity := "low" }

/-- A minimal live session. -/
def sampleSession : Session :=
  { id := 0, user_id := "u", created_at := 0, last_activity := 0,
    state := SessionState.ACTIVE, context := [] }

/-- A parsed prompt holding a given task list. -/
def sampleParsed (ts : List Task) : ParsedPrompt :=
  { original_text := [], complexity := PromptComplexity.COMPLEX, tasks := ts,
    requires_session_context := false, estimated_tokens := 0 }

/-- A store holding exactly one session, created at time 0 for user "u". -/
def sampleStore : ManagerState := (create_session 0 "u" initManager).2

end MCPChatbot


namespace MCPChatbot

/-! ## Theorems

Claim theorems, their witnesses and counterexamples, preceded by the shared
helper lemmas they build on. -/

/-- Claim C1, as stated, is false: on "Add a note about X and add a note
about Y" the parser produces ONE task (bare " and " matches none of the
separator patterns) and complexity SIMPLE, not two COMPOUND tasks. -/
theorem C1_counterexample :
    (parse_prompt "Add a note about X and add a note about Y").tasks.length = 1 ∧
    (parse_prompt "Add a note about X and add a note about Y").complexity =
      PromptComplexity.SIMPLE ∧
    ¬ ((parse_prompt "Add a note about X and add a note about Y").tasks.length = 2 ∧
       (parse_prompt "Add a note about X and add a note about Y").complexity =
         PromptComplexity.COMPOUND) := by
  decide

/-- C1 (amended): for the input "Add a note about X and add a note about Y",
`parse_prompt` returns exactly one task, of type "general", and
`complexity == SIMPLE`, because a bare " and " is not one of the separator
patterns. -/
theorem C1_single_task_simple :
    (parse_prompt "Add a note about X and add a note about Y").tasks.length = 1 ∧
    ((parse_prompt "Add a note about X and add a note about Y").tasks.map Task.type) =
      ["general"] ∧
    (parse_prompt "Add a note about X and add a note about Y").complexity =
      PromptComplexity.SIMPLE := by
  decide

/-- Claim C2, as stated, is false: the first segment "Add a note about X and"
contains none of the creation keywords (implement/create/build/make), so its
type is "general", not "creation". -/
theorem C2_counterexample :
    ((parse_prompt "Add a note about X and also search docs for Y").tasks.map Task.type) =
      ["general", "search"] ∧
    ((parse_prompt "Add a note about X and also search docs for Y").tasks.map Task.type) ≠
      ["creation", "search"] := by
  decide

/-- C2 (amended): for "Add a note about X and also search docs for Y",
`parse_prompt` returns exactly two tasks whose types are, in order,
"general" then "search" ("Add" is not a creation keyword), and
`complexity == COMPLEX` because the two types differ. -/
theorem C2_two_tasks_complex :
    (parse_prompt "Add a note about X and also search docs for Y").tasks.length = 2 ∧
    ((parse_prompt "Add a note about X and also search docs for Y").tasks.map Task.type) =
      ["general", "search"] ∧
    (parse_prompt "Add a note about X and also search docs for Y").complexity =
      PromptComplexity.COMPLEX := by
  decide

/-- Claim C3, as stated, is false: on the empty string the task list is empty,
and `_assess_complexity` maps a zero-length task list to COMPLEX (its final
`else` branch), not SIMPLE. -/
theorem C3_counterexample :
    (parse_prompt "").tasks = [] ∧
    (parse_prompt "").complexity = PromptComplexity.COMPLEX ∧
    (parse_prompt "").complexity ≠ PromptComplexity.SIMPLE := by
  decide

/-- C3 (amended): the empty input yields zero tasks and
`complexity == COMPLEX` (zero tasks fall into the final `else` of
`_assess_complexity`); every Prompt Analyzer operation is a total function of
its string input, so none raises. -/
theorem C3_empty_parse :
    (parse_prompt "").tasks = [] ∧
    (parse_prompt "").complexity = PromptComplexity.COMPLEX ∧
    (parse_prompt "").estimated_tokens = 0 ∧
    (parse_prompt "").requires_session_context = false ∧
    is_session_command "".toList = false := by
  decide

/-- Claim C5, as stated, is false: the source computes
`int(len(text.split()) * 1.3)`, which truncates; for the three-word input
"a b c" it yields 3 while `round(3 * 1.3) = 4`. -/
theorem C5_counterexample :
    (pySplit (pyStrip "a b c".toList)).length = 3 ∧
    (parse_prompt "a b c").estimated_tokens = 3 ∧
    round ((3 : ℚ) * (13 / 10)) = (4 : ℤ) ∧
    ((parse_prompt "a b c").estimated_tokens : ℤ) ≠
      round (((pySplit (pyStrip "a b c".toList)).length : ℚ) * (13 / 10)) := by
  refine ⟨by decide, by decide, ?_, ?_⟩
  · norm_num [round_eq]
  · have h1 : (parse_prompt "a b c").estimated_tokens = 3 := by decide
    have h2 : (pySplit (pyStrip "a b c".toList)).length = 3 := by decide
    rw [h1, h2]
    norm_num [round_eq]

/-- C5 (amended): for every input string, `estimated_tokens` equals
`⌊word_count * 1.3⌋` (truncation, as `int()` does), where `word_count` is the
number of whitespace-separated words of the trimmed input. -/
theorem C5_estimated_tokens_floor (input : String) :
    (parse_prompt input).estimated_tokens =
      ⌊(((pySplit (pyStrip input.toList)).length : ℚ) * (13 / 10))⌋₊ := by
  have h : (parse_prompt input).estimated_tokens =
      13 * (pySplit (pyStrip input.toList)).length / 10 := rfl
  rw [h]
  have h2 : (((pySplit (pyStrip input.toList)).length : ℚ) * (13 / 10)) =
      ((13 * (pySplit (pyStrip input.toList)).length : ℕ) : ℚ) / ((10 : ℕ) : ℚ) := by
    push_cast
    ring
  rw [h2, Nat.floor_div_nat, Nat.floor_natCast]

end MCPChatbot

namespace MCPChatbot

/-! ### Session Store lemmas -/

/-- Entries whose key differs from `sid` are untouched by the CLOSED
write-back, so filtering the written map equals filtering the original. -/
theorem filter_ne_map_update (l : List (Nat × Session)) (sid : Nat)
    (g : Session → Session) :
    ((l.map fun p => if p.1 = sid then (p.1, g p.2) else p).filter
        fun p => p.1 ≠ sid) =
      l.filter fun p => p.1 ≠ sid := by
  induction l with
  | nil => rfl
  | cons head tail ih =>
    by_cases h : head.1 = sid
    · simpa [h, decide_not] using ih
    · simpa [h, decide_not] using ih

/-- Closing always leaves the map equal to the original without the key (when
the key is absent the filter is the identity). -/
theorem close_session_sessions (sid : Nat) (st : ManagerState) :
    (close_session sid st).2.sessions = st.sessions.filter fun p => p.1 ≠ sid := by
  unfold close_session
  cases hg : get_session sid st with
  | none =>
    have hfind : st.sessions.find? (fun p => p.1 = sid) = none := by
      have := hg
      unfold get_session at this
      exact Option.map_eq_none'.mp this
    have hall : ∀ p ∈ st.sessions, p.1 ≠ sid := by
      intro p hp
      have := List.find?_eq_none.mp hfind p hp
      simpa using this
    simp only
    exact ((List.filter_eq_self).mpr (by
      intro p hp
      simpa using hall p hp)).symm
  | some s =>
    simp only
    exact (filter_ne_map_update st.sessions sid
      (fun s => { s with state := SessionState.CLOSED, context := [] })).symm ▸ rfl

/-- The boolean returned by `close_session` is exactly "the id was found". -/
theorem close_session_fst (sid : Nat) (st : ManagerState) :
    (close_session sid st).1 = (get_session sid st).isSome := by
  unfold close_session
  cases get_session sid st <;> rfl

/-- After a close, looking the id up fails. -/
theorem get_session_close (sid : Nat) (st : ManagerState) :
    get_session sid (close_session sid st).2 = none := by
  unfold get_session
  rw [close_session_sessions]
  have hfind : (st.sessions.filter fun p => p.1 ≠ sid).find?
      (fun p => p.1 = sid) = none := by
    apply List.find?_eq_none.mpr
    intro x hx
    have := (List.mem_filter.mp hx).2
    simpa using this
  rw [hfind]
  rfl

end MCPChatbot

namespace MCPChatbot

/-- Closing preserves "no CLOSED session is reachable from the map". -/
theorem noClosed_close (sid : Nat) (st : ManagerState)
    (h : NoClosedInMap st) : NoClosedInMap (close_session sid st).2 := by
  intro p hp
  rw [close_session_sessions] at hp
  exact h p (List.mem_filter.mp hp).1

/-- Closing a batch of ids preserves the invariant. -/
theorem noClosed_closeMany (ids : List Nat) (st : ManagerState)
    (h : NoClosedInMap st) : NoClosedInMap (closeMany ids st).2 := by
  induction ids generalizing st with
  | nil => exact h
  | cons i ids ih => exact ih (close_session i st).2 (noClosed_close i st h)

/-- Creation inserts an ACTIVE session, preserving the invariant. -/
theorem noClosed_create (now : Int) (uid : String) (st : ManagerState)
    (h : NoClosedInMap st) : NoClosedInMap (create_session now uid st).2 := by
  intro p hp
  unfold create_session at hp
  simp only at hp
  rcases List.mem_append.mp hp with hmem | hmem
  · exact h p hmem
  · rcases List.mem_singleton.mp hmem with rfl
    simp

/-- Every single Session Store operation preserves the invariant. -/
theorem noClosed_applyOp (op : MOp) (st : ManagerState)
    (h : NoClosedInMap st) : NoClosedInMap (applyOp op st) := by
  cases op with
  | create now uid => exact noClosed_create now uid st h
  | get sid => exact h
  | close sid => exact noClosed_close sid st h
  | closeUser uid => exact noClosed_closeMany _ st h
  | cleanup now => exact noClosed_closeMany _ st h

/-- Invariant holds along any run from any invariant-satisfying state. -/
theorem noClosed_runOps (ops : List MOp) :
    ∀ st : ManagerState, NoClosedInMap st → NoClosedInMap (runOps ops st) := by
  induction ops with
  | nil => intro st h; exact h
  | cons op ops ih =>
    intro st h
    exact ih (applyOp op st) (noClosed_applyOp op st h)

/-- C6 (confirmed): along every operation sequence from the initial store, no
session reachable from the live map is in state CLOSED, and the single
`close_session` step that drives a session to CLOSED also removes it from the
map (looking it up immediately afterwards fails). -/
theorem C6_no_closed_reachable :
    (∀ ops : List MOp, NoClosedInMap (runOps ops initManager)) ∧
    (∀ (sid : Nat) (st : ManagerState),
      get_session sid (close_session sid st).2 = none) :=
  ⟨fun ops => noClosed_runOps ops initManager (by intro p hp; cases hp),
   fun sid st => get_session_close sid st⟩

/-- C7 (confirmed): closing an id present in the store returns true and
removes it, so a second close of the same id returns false; closing an absent
id returns false and leaves the store unchanged (no exception — the function
is total). -/
theorem C7_close_twice (st : ManagerState) (sid : Nat) :
    ((get_session sid st).isSome →
      (close_session sid st).1 = true ∧
      get_session sid (close_session sid st).2 = none ∧
      (close_session sid (close_session sid st).2).1 = false) ∧
    (get_session sid st = none → close_session sid st = (false, st)) := by
  constructor
  · intro hsome
    refine ⟨?_, get_session_close sid st, ?_⟩
    · rw [close_session_fst]
      exact hsome
    · rw [close_session_fst, get_session_close]
      rfl
  · intro hnone
    unfold close_session
    rw [hnone]

/-- Witness for C7 at a concrete store: `sampleStore` holds session 0, whose
first close succeeds and second close fails; closing id 7 of the empty store
returns false. -/
theorem C7_witness :
    (close_session 0 sampleStore).1 = true ∧
    get_session 0 (close_session 0 sampleStore).2 = none ∧
    (close_session 0 (close_session 0 sampleStore).2).1 = false ∧
    close_session 7 initManager = (false, initManager) :=
  ⟨((C7_close_twice sampleStore 0).1 (by decide)).1,
   ((C7_close_twice sampleStore 0).1 (by decide)).2.1,
   ((C7_close_twice sampleStore 0).1 (by decide)).2.2,
   (C7_close_twice initManager 7).2 (by decide)⟩

end MCPChatbot

namespace MCPChatbot

/-- Closing a duplicate-free batch of ids that are all present removes exactly
the entries with those keys and reports one success per id. -/
theorem closeMany_spec (ids : List Nat) :
    ∀ st : ManagerState, KeysNodup st → ids.Nodup →
      (∀ i ∈ ids, ∃ p ∈ st.sessions, p.1 = i) →
      (closeMany ids st).2.sessions =
        (st.sessions.filter fun p => decide (p.1 ∉ ids)) ∧
      (closeMany ids st).1 = ids.length := by
  induction ids with
  | nil =>
    intro st _ _ _
    refine ⟨?_, rfl⟩
    simp [closeMany]
  | cons i ids ih =>
    intro st hnd hids hmem
    obtain ⟨p0, hp0, hp0k⟩ := hmem i (List.mem_cons_self i ids)
    have hfound : (get_session i st).isSome := by
      unfold get_session
      rw [Option.isSome_map']
      exact List.find?_isSome.mpr ⟨p0, hp0, by simp [hp0k]⟩
    have hfst : (close_session i st).1 = true := by
      rw [close_session_fst]; exact hfound
    have hsess : (close_session i st).2.sessions =
        st.sessions.filter fun p => p.1 ≠ i := close_session_sessions i st
    have hnd' : KeysNodup (close_session i st).2 := by
      unfold KeysNodup at hnd ⊢
      rw [hsess]
      exact hnd.sublist ((List.filter_sublist _).map Prod.fst)
    have hnotmem := (List.nodup_cons.mp hids).1
    have hids' := (List.nodup_cons.mp hids).2
    have hmem' : ∀ j ∈ ids, ∃ p ∈ (close_session i st).2.sessions, p.1 = j := by
      intro j hj
      obtain ⟨q, hq, hqk⟩ := hmem j (List.mem_cons_of_mem i hj)
      refine ⟨q, ?_, hqk⟩
      rw [hsess]
      refine List.mem_filter.mpr ⟨hq, ?_⟩
      simp only [decide_eq_true_eq]
      intro hcontra
      have hij : i = j := by rw [← hcontra, hqk]
      exact hnotmem (hij ▸ hj)
    obtain ⟨h1, h2⟩ := ih (close_session i st).2 hnd' hids' hmem'
    refine ⟨?_, ?_⟩
    · have hstep : (closeMany (i :: ids) st).2 =
          (closeMany ids (close_session i st).2).2 := rfl
      rw [hstep, h1, hsess, List.filter_filter]
      apply List.filter_congr
      intro x _
      simp [List.mem_cons, not_or, Bool.and_comm]
    · have hstep : (closeMany (i :: ids) st).1 =
          (closeMany ids (close_session i st).2).1 +
            (if (close_session i st).1 then 1 else 0) := rfl
      rw [hstep, h2, hfst]
      simp

end MCPChatbot

namespace MCPChatbot

/-- C8 (confirmed): a session whose `last_activity` lies more than
`timeout_minutes` in the past reports `is_expired`, and (for a store with
duplicate-free keys, as Python dicts have) `cleanup_expired_sessions` removes
exactly the expired sessions: the surviving map is the filter of the
non-expired entries, the returned count is the number of expired entries, and
the store's count decreases by exactly that number. -/
theorem C8_expiry_cleanup (now : Int) (st : ManagerState) (hnd : KeysNodup st) :
    (cleanup_expired_sessions now st).2.sessions =
      (st.sessions.filter fun p => !(p.2.is_expired now)) ∧
    (cleanup_expired_sessions now st).1 =
      (st.sessions.filter fun p => p.2.is_expired now).length ∧
    get_session_count (cleanup_expired_sessions now st).2 +
      (st.sessions.filter fun p => p.2.is_expired now).length =
      get_session_count st ∧
    (∀ sid : Nat, (∃ p ∈ st.sessions, p.1 = sid ∧ p.2.is_expired now = true) →
      get_session sid (cleanup_expired_sessions now st).2 = none) ∧
    (∀ (t : Int) (s : Session),
      t - s.last_activity > 60 * (s.timeout_minutes : Int) →
      s.is_expired t = true) := by
  have hinj := List.inj_on_of_nodup_map hnd
  set ids := (st.sessions.filter fun p => p.2.is_expired now).map Prod.fst with hids_def
  have hids : ids.Nodup := hnd.sublist ((List.filter_sublist _).map Prod.fst)
  have hmem : ∀ i ∈ ids, ∃ p ∈ st.sessions, p.1 = i := by
    intro i hi
    obtain ⟨q, hq, hqk⟩ := List.mem_map.mp hi
    exact ⟨q, (List.mem_filter.mp hq).1, hqk⟩
  have hrun : cleanup_expired_sessions now st = closeMany ids st := rfl
  obtain ⟨h1, h2⟩ := closeMany_spec ids st hnd hids hmem
  have hkey : ∀ x ∈ st.sessions, decide (x.1 ∉ ids) = !(x.2.is_expired now) := by
    intro x hx
    cases hexp : x.2.is_expired now with
    | true =>
      have : x.1 ∈ ids :=
        List.mem_map.mpr ⟨x, List.mem_filter.mpr ⟨hx, hexp⟩, rfl⟩
      simp [this]
    | false =>
      have : x.1 ∉ ids := by
        intro hmemx
        obtain ⟨q, hq, hqk⟩ := List.mem_map.mp hmemx
        have hqs := (List.mem_filter.mp hq).1
        have hqe := (List.mem_filter.mp hq).2
        have : q = x := hinj hqs hx hqk
        rw [this] at hqe
        rw [hexp] at hqe
        cases hqe
      simp [this]
  have h1' : (cleanup_expired_sessions now st).2.sessions =
      st.sessions.filter fun p => !(p.2.is_expired now) := by
    rw [hrun, h1]
    exact List.filter_congr hkey
  refine ⟨h1', ?_, ?_, ?_, ?_⟩
  · rw [hrun, h2, hids_def, List.length_map]
  · have hlen : get_session_count (cleanup_expired_sessions now st).2 =
        (st.sessions.filter fun p => !(p.2.is_expired now)).length := by
      unfold get_session_count
      rw [h1']
    rw [hlen]
    unfold get_session_count
    rw [Nat.add_comm]
    exact (List.length_eq_length_filter_add
      (fun (p : Nat × Session) => p.2.is_expired now)).symm
  · intro sid hsid
    obtain ⟨p, hp, hpk, hpe⟩ := hsid
    unfold get_session
    rw [h1']
    have hfind : ((st.sessions.filter fun (p : Nat × Session) => !(p.2.is_expired now)).find?
        fun (q : Nat × Session) => q.1 = sid) = none := by
      apply List.find?_eq_none.mpr
      intro x hx
      have hxs := (List.mem_filter.mp hx).1
      have hxe := (List.mem_filter.mp hx).2
      simp only [decide_eq_true_eq]
      intro hxk
      have : x = p := hinj hxs hp (by rw [hxk, hpk])
      rw [this, hpe] at hxe
      cases hxe
    rw [hfind]
    rfl
  · intro t s h
    unfold Session.is_expired
    exact decide_eq_true h

/-- Witness for C8 at a concrete store: `sampleStore` holds one session with
`last_activity = 0` and the default 30-minute timeout; at `now = 1801`
seconds it is expired, cleanup reports one close, and the store is empty
afterwards. -/
theorem C8_witness :
    Session.is_expired 1801 sampleSession = true ∧
    (cleanup_expired_sessions 1801 sampleStore).1 = 1 ∧
    get_session_count (cleanup_expired_sessions 1801 sampleStore).2 = 0 := by
  have h := C8_expiry_cleanup 1801 sampleStore (by unfold KeysNodup; decide)
  refine ⟨h.2.2.2.2 1801 sampleSession (by decide), ?_, ?_⟩
  · rw [h.2.1]
    decide
  · show (cleanup_expired_sessions 1801 sampleStore).2.sessions.length = 0
    rw [h.1]
    decide

end MCPChatbot

namespace MCPChatbot

/-- Unfolding equation: inserting into the empty list. -/
theorem insertByPriority_nil (t : Task) : insertByPriority t [] = [t] := rfl

/-- Unfolding equation: the new task goes in front of a no-higher-priority
head (and hence in front of equal-priority tasks: stability). -/
theorem insertByPriority_cons_le (t u : Task) (us : List Task)
    (h : t.priority ≤ u.priority) :
    insertByPriority t (u :: us) = t :: u :: us := by
  unfold insertByPriority
  rw [if_pos h]

/-- Unfolding equation: the new task moves past a lower-priority head. -/
theorem insertByPriority_cons_gt (t u : Task) (us : List Task)
    (h : ¬ t.priority ≤ u.priority) :
    insertByPriority t (u :: us) = u :: insertByPriority t us := by
  unfold insertByPriority
  rw [if_neg h]
  cases us <;> rfl

/-- Inserting among equal-priority tasks goes to the front, so a list whose
priorities are all equal is left in its original order. -/
theorem sortTasks_all_eq (k : Nat) :
    ∀ ts : List Task, (∀ t ∈ ts, t.priority = k) → sortTasksByPriority ts = ts := by
  intro ts
  induction ts with
  | nil => intro _; rfl
  | cons t ts ih =>
    intro h
    have ht := h t (List.mem_cons_self t ts)
    have hts : ∀ u ∈ ts, u.priority = k := fun u hu => h u (List.mem_cons_of_mem t hu)
    have hsort : sortTasksByPriority (t :: ts) =
        insertByPriority t (sortTasksByPriority ts) := rfl
    rw [hsort, ih hts]
    cases ts with
    | nil => rfl
    | cons u us =>
      have hu := hts u (List.mem_cons_self u us)
      unfold insertByPriority
      rw [ht, hu]
      simp

/-- C9 (confirmed): the COMPLEX dispatch returns the tasks sorted by priority
ascending — a `[3,1,2]` list comes back in order `[1,2,3]` — and the sort is
stable: a list of equal priorities is returned in its original order. -/
theorem C9_priority_sort :
    (∀ (sess : Session) (pp : ParsedPrompt) (a b c : Task),
      pp.tasks = [a, b, c] →
      a.priority = 3 → b.priority = 1 → c.priority = 2 →
      (handle_complex_prompt sess pp).2 = Response.complex_response [b, c, a] ∧
      [b, c, a].map Task.priority = [1, 2, 3]) ∧
    (∀ (sess : Session) (pp : ParsedPrompt) (k : Nat),
      (∀ t ∈ pp.tasks, t.priority = k) →
      (handle_complex_prompt sess pp).2 = Response.complex_response pp.tasks) := by
  constructor
  · intro sess pp a b c hpp ha hb hc
    have hsort : sortTasksByPriority pp.tasks = [b, c, a] := by
      rw [hpp]
      have e1 : sortTasksByPriority [a, b, c] =
          insertByPriority a (insertByPriority b (insertByPriority c [])) := rfl
      rw [e1, insertByPriority_nil,
        insertByPriority_cons_le b c [] (by rw [hb, hc]; norm_num),
        insertByPriority_cons_gt a b [c] (by rw [ha, hb]; norm_num),
        insertByPriority_cons_gt a c [] (by rw [ha, hc]; norm_num),
        insertByPriority_nil]
    constructor
    · show Response.complex_response (sortTasksByPriority pp.tasks) = _
      rw [hsort]
    · simp [ha, hb, hc]
  · intro sess pp k h
    show Response.complex_response (sortTasksByPriority pp.tasks) = _
    rw [sortTasks_all_eq k pp.tasks h]

/-- Witness for C9 at concrete task lists: priorities `[3,1,2]` come back
`[1,2,3]`, and an all-equal list keeps its order. -/
theorem C9_witness :
    (handle_complex_prompt sampleSession
        (sampleParsed [sampleTask 3, sampleTask 1, sampleTask 2])).2 =
      Response.complex_response [sampleTask 1, sampleTask 2, sampleTask 3] ∧
    (handle_complex_prompt sampleSession
        (sampleParsed [sampleTask 5, sampleTask 5])).2 =
      Response.complex_response [sampleTask 5, sampleTask 5] :=
  ⟨(C9_priority_sort.1 sampleSession
      (sampleParsed [sampleTask 3, sampleTask 1, sampleTask 2])
      (sampleTask 3) (sampleTask 1) (sampleTask 2) rfl rfl rfl rfl).1,
   C9_priority_sort.2 sampleSession
      (sampleParsed [sampleTask 5, sampleTask 5]) 5 (by decide)⟩

end MCPChatbot

namespace MCPChatbot

/-- The classifier answers SIMPLE only on one-task lists: its first branch is
the only one producing SIMPLE. -/
theorem assess_complexity_simple {ts : List Task}
    (h : assess_complexity ts = PromptComplexity.SIMPLE) : ts.length = 1 := by
  unfold assess_complexity at h
  by_cases h1 : ts.length = 1
  · exact h1
  · rw [if_neg h1] at h
    by_cases h2 : ts.length = 2
    · rw [if_pos h2] at h
      by_cases h3 : (ts.map Task.type).dedup.length = 1
      · rw [if_pos h3] at h; cases h
      · rw [if_neg h3] at h; cases h
    · rw [if_neg h2] at h; cases h

/-- The complexity field is the classifier applied to the tasks field. -/
theorem parse_prompt_complexity (msg : String) :
    (parse_prompt msg).complexity = assess_complexity (parse_prompt msg).tasks := by
  simp only [parse_prompt]

/-- An appended entry satisfying the predicate guarantees `find?` succeeds. -/
theorem find?_append_last {α : Type} (pr : α → Bool) (l : List α) (x : α)
    (hx : pr x = true) : (List.find? pr (l ++ [x])).isSome := by
  induction l with
  | nil => simp [List.find?_cons, hx]
  | cons a t ih =>
    by_cases h : pr a
    · simp [List.find?_cons, h]
    · simpa [List.find?_cons, h] using ih

/-- Looking up the id returned by `create_session` always succeeds. -/
theorem get_session_create (now : Int) (uid : String) (st : ManagerState) :
    (get_session (create_session now uid st).1
      (create_session now uid st).2).isSome := by
  unfold create_session get_session
  simp only
  rw [Option.isSome_map']
  exact find?_append_last _ _ _ (by simp)

/-- Dispatch on a parsed prompt never fails: SIMPLE prompts carry exactly one
task (so `tasks[0]` exists), and the other branches are total. -/
theorem handle_by_complexity_parse (sess : Session) (msg : String) :
    (handle_by_complexity sess (parse_prompt msg)).isSome := by
  unfold handle_by_complexity
  cases hc : (parse_prompt msg).complexity with
  | SIMPLE =>
    have hlen : (parse_prompt msg).tasks.length = 1 :=
      assess_complexity_simple ((parse_prompt_complexity msg).symm.trans hc)
    simp only
    unfold handle_simple_prompt
    cases hh : (parse_prompt msg).tasks with
    | nil => rw [hh] at hlen; cases hlen
    | cons t ts => simp [hh]
  | COMPOUND => rfl
  | COMPLEX => rfl
  | CONTEXTUAL => rfl

/-- The tail of `handle_message` never fails once a session is in hand. -/
theorem handle_resolved_isSome (now : Int) (uid : String) (sid : Nat)
    (msg : String) (st : ManagerState) (sess : Session) :
    (handle_resolved now uid sid msg st sess).isSome := by
  unfold handle_resolved
  simp only
  cases hh : handle_by_complexity (sess.update_activity now) (parse_prompt msg) with
  | none =>
    have := handle_by_complexity_parse (sess.update_activity now) msg
    rw [hh] at this
    cases this
  | some sr => rfl

/-- C10 (confirmed): `handle_message` always returns an envelope — in
particular the unguarded `tasks[0]` in the SIMPLE branch is safe because the
classifier returns SIMPLE only for one-task lists, and a zero-task parse is
classified COMPLEX and dispatched to the complex handler, which tolerates an
empty task list. -/
theorem C10_handle_message_total :
    (∀ (now : Int) (uid : String) (sid : Nat) (msg : String) (st : ManagerState),
      (handle_message now uid sid msg st).isSome) ∧
    (∀ msg : String, (parse_prompt msg).complexity = PromptComplexity.SIMPLE →
      (parse_prompt msg).tasks.length = 1) ∧
    (∀ msg : String, (parse_prompt msg).tasks = [] →
      (parse_prompt msg).complexity = PromptComplexity.COMPLEX) := by
  refine ⟨?_, ?_, ?_⟩
  · intro now uid sid msg st
    unfold handle_message
    by_cases hcmd : is_session_command msg.toList
    · rw [if_pos hcmd]
      rfl
    · rw [if_neg hcmd]
      cases hg : get_session sid st with
      | some session0 => exact handle_resolved_isSome now uid sid msg st session0
      | none =>
        simp only
        cases hg2 : get_session (create_session now uid st).1
            (create_session now uid st).2 with
        | none =>
          have := get_session_create now uid st
          rw [hg2] at this
          cases this
        | some session0 => exact handle_resolved_isSome now uid _ msg _ session0
  · intro msg h
    exact assess_complexity_simple ((parse_prompt_complexity msg).symm.trans h)
  · intro msg h
    rw [parse_prompt_complexity, h]
    rfl

/-- Witness for C10: a concrete call returns an envelope; "hi" parses SIMPLE
with one task; the whitespace-only prompt parses to zero tasks, COMPLEX. -/
theorem C10_witness :
    (handle_message 0 "u" 0 "hi" initManager).isSome ∧
    (parse_prompt "hi").tasks.length = 1 ∧
    (parse_prompt " ").complexity = PromptComplexity.COMPLEX :=
  ⟨C10_handle_message_total.1 0 "u" 0 "hi" initManager,
   C10_handle_message_total.2.1 "hi" (by decide),
   C10_handle_message_total.2.2 " " (by decide)⟩

end MCPChatbot

namespace MCPChatbot

/-! ### No-separator inputs: the split is the identity (claim C4)

The hypothesis of C4 speaks about the raw input, while the parser matches on
the trimmed text; the next lemmas show a separator match in the trimmed text
would lift to one in the raw input, so "no separator occurs in the input"
is enough. -/

/-- A literal consumed from `t` is consumed the same way from `t ++ w`. -/
theorem stripLit_append (l : List Char) :
    ∀ t t' w : List Char, stripLit l t = some t' →
      stripLit l (t ++ w) = some (t' ++ w) := by
  induction l with
  | nil =>
    intro t t' w h
    cases h
    rfl
  | cons p ps ih =>
    intro t t' w h
    cases t with
    | nil => cases h
    | cons c cs =>
      simp only [stripLit] at h ⊢
      by_cases hc : lowerC c = p
      · rw [if_pos hc] at h ⊢
        exact ih cs t' w h
      · rw [if_neg hc] at h
        cases h

/-- Leading-whitespace removal on an appended list. -/
theorem dropWs_append (t w : List Char) :
    dropWs (t ++ w) = if (dropWs t).isEmpty then dropWs w else dropWs t ++ w := by
  induction t with
  | nil => simp [dropWs]
  | cons c cs ih =>
    by_cases hc : isWs c
    · simpa [dropWs, hc] using ih
    · simp [dropWs, hc]

/-- An all-whitespace list is dropped entirely. -/
theorem dropWs_all (w : List Char) (hw : ∀ c ∈ w, isWs c = true) :
    dropWs w = [] := by
  induction w with
  | nil => rfl
  | cons c cs ih =>
    have hc := hw c (List.mem_cons_self c cs)
    simp only [dropWs, hc, if_true]
    exact ih fun c hc' => hw c (List.mem_cons_of_mem _ hc')

/-- A successful alternative match survives appending trailing whitespace. -/
theorem matchAlt_append_ws (w : List Char) (hw : ∀ c ∈ w, isWs c = true) :
    ∀ (alt : RAlt) (t : List Char), (matchAlt alt t).isSome = true →
      (matchAlt alt (t ++ w)).isSome = true := by
  intro alt
  induction alt with
  | nil => intro t _; rfl
  | cons tok ts ih =>
    intro t h
    cases tok with
    | lit l =>
      unfold matchAlt at h ⊢
      cases hs : stripLit l t with
      | none => rw [hs] at h; cases h
      | some t' =>
        rw [hs] at h
        rw [stripLit_append l t t' w hs]
        exact ih t' h
    | ws =>
      unfold matchAlt at h ⊢
      rw [dropWs_append]
      by_cases he : (dropWs t).isEmpty
      · rw [if_pos he]
        have ht : dropWs t = [] := by
          cases hd : dropWs t
          · rfl
          · rw [hd] at he; cases he
        rw [ht] at h
        rw [dropWs_all w hw]
        exact h
      · rw [if_neg he]
        exact ih (dropWs t) h

/-- A successful pattern match at a position survives trailing whitespace. -/
theorem matchPatHere_append_ws (w : List Char) (hw : ∀ c ∈ w, isWs c = true) :
    ∀ (p : RPat) (t : List Char), (matchPatHere p t).isSome = true →
      (matchPatHere p (t ++ w)).isSome = true := by
  intro p
  induction p with
  | nil => intro t h; cases h
  | cons alt alts ih =>
    intro t h
    unfold matchPatHere at h ⊢
    cases ha : matchAlt alt (t ++ w) with
    | some s' => rfl
    | none =>
      cases hat : matchAlt alt t with
      | some s' =>
        have := matchAlt_append_ws w hw alt t (by rw [hat]; rfl)
        rw [ha] at this
        cases this
      | none =>
        rw [hat] at h
        exact ih t h

end MCPChatbot

namespace MCPChatbot

/-- A match at the current position implies a match somewhere. -/
theorem matchesSomewhere_of_here (p : RPat) (s : List Char)
    (h : (matchPatHere p s).isSome = true) : matchesSomewhere p s = true := by
  cases s with
  | nil => exact h
  | cons c cs =>
    unfold matchesSomewhere
    rw [h]
    rfl

/-- A match somewhere in the tail is a match somewhere. -/
theorem matchesSomewhere_cons (p : RPat) (c : Char) (cs : List Char)
    (h : matchesSomewhere p cs = true) : matchesSomewhere p (c :: cs) = true := by
  unfold matchesSomewhere
  rw [h]
  simp

/-- A match somewhere survives prepending arbitrary text. -/
theorem matchesSomewhere_append_left (p : RPat) (u t : List Char)
    (h : matchesSomewhere p t = true) : matchesSomewhere p (u ++ t) = true := by
  induction u with
  | nil => exact h
  | cons c cs ih => exact matchesSomewhere_cons p c (cs ++ t) ih

/-- A match somewhere survives appending trailing whitespace. -/
theorem matchesSomewhere_append_ws (p : RPat) (w : List Char)
    (hw : ∀ c ∈ w, isWs c = true) :
    ∀ t : List Char, matchesSomewhere p t = true →
      matchesSomewhere p (t ++ w) = true := by
  intro t
  induction t with
  | nil =>
    intro h
    exact matchesSomewhere_of_here p w (matchPatHere_append_ws w hw p [] h)
  | cons c cs ih =>
    intro h
    unfold matchesSomewhere at h
    rcases Bool.or_eq_true_iff.mp h with hhead | htail
    · exact matchesSomewhere_of_here p ((c :: cs) ++ w)
        (matchPatHere_append_ws w hw p (c :: cs) hhead)
    · exact matchesSomewhere_cons p c (cs ++ w) (ih htail)

/-- The leading whitespace that `dropWs` removes. -/
theorem dropWs_decomp (s : List Char) :
    ∃ u, s = u ++ dropWs s ∧ ∀ c ∈ u, isWs c = true := by
  induction s with
  | nil => exact ⟨[], rfl, by intro c hc; cases hc⟩
  | cons c cs ih =>
    by_cases hc : isWs c
    · obtain ⟨u, hu, hws⟩ := ih
      refine ⟨c :: u, ?_, ?_⟩
      · simp only [dropWs, hc, if_true]
        rw [List.cons_append, ← hu]
      · intro d hd
        rcases List.mem_cons.mp hd with rfl | hd'
        · exact hc
        · exact hws d hd'
    · refine ⟨[], ?_, by intro d hd; cases hd⟩
      simp [dropWs, hc]

/-- The trimmed text sits inside the raw text between two whitespace runs. -/
theorem pyStrip_decomp (s : List Char) :
    ∃ u v, s = u ++ pyStrip s ++ v ∧
      (∀ c ∈ u, isWs c = true) ∧ (∀ c ∈ v, isWs c = true) := by
  obtain ⟨u, hu, huw⟩ := dropWs_decomp s
  obtain ⟨v, hv, hvw⟩ := dropWs_decomp (dropWs s).reverse
  refine ⟨u, v.reverse, ?_, huw, ?_⟩
  · have hstep : dropWs s = pyStrip s ++ v.reverse := by
      unfold pyStrip
      have h2 := congrArg List.reverse hv
      rw [List.reverse_reverse, List.reverse_append] at h2
      exact h2
    exact hu.trans (by rw [hstep, ← List.append_assoc])
  · intro c hc
    exact hvw c (List.mem_reverse.mp hc)

/-- A separator occurring in the trimmed text occurs in the raw text. -/
theorem matchesSomewhere_pyStrip (p : RPat) (s : List Char)
    (h : matchesSomewhere p (pyStrip s) = true) :
    matchesSomewhere p s = true := by
  obtain ⟨u, v, hs, huw, hvw⟩ := pyStrip_decomp s
  rw [hs, List.append_assoc]
  exact matchesSomewhere_append_left p u (pyStrip s ++ v)
    (matchesSomewhere_append_ws p v hvw (pyStrip s) h)

end MCPChatbot

namespace MCPChatbot

/-- The head surviving `dropWs` is not whitespace. -/
theorem dropWs_head (l : List Char) :
    ∀ c t, dropWs l = c :: t → isWs c = false := by
  induction l with
  | nil => intro c t h; cases h
  | cons a as ih =>
    intro c t h
    by_cases ha : isWs a
    · simp only [dropWs, ha, if_true] at h
      exact ih c t h
    · simp only [dropWs, ha, if_false] at h
      cases h
      simpa using ha

/-- Lists whose head is not whitespace are fixed by `dropWs`. -/
theorem dropWs_eq_self (l : List Char)
    (h : ∀ c, l.head? = some c → isWs c = false) : dropWs l = l := by
  cases l with
  | nil => rfl
  | cons c cs =>
    have := h c rfl
    simp [dropWs, this]

/-- Removing leading whitespace is idempotent. -/
theorem dropWs_dropWs (l : List Char) : dropWs (dropWs l) = dropWs l := by
  cases hd : dropWs l with
  | nil => rfl
  | cons c t =>
    have := dropWs_head l c t hd
    simp [dropWs, this]

/-- Python `strip` is idempotent (the source strips segments that are already
stripped). -/
theorem pyStrip_idem (s : List Char) : pyStrip (pyStrip s) = pyStrip s := by
  cases hY : dropWs ((dropWs s).reverse) with
  | nil =>
    have hps : pyStrip s = [] := by
      unfold pyStrip
      rw [hY]
      rfl
    rw [hps]
    rfl
  | cons c t =>
    have hps : pyStrip s = (c :: t).reverse := by
      unfold pyStrip
      rw [hY]
    have hd : dropWs s ≠ [] := by
      intro hcontra
      rw [hcontra] at hY
      cases hY
    obtain ⟨e, es, he⟩ : ∃ e es, dropWs s = e :: es := by
      cases hds : dropWs s with
      | nil => exact absurd hds hd
      | cons e es => exact ⟨e, es, rfl⟩
    have hle : ((dropWs s).reverse).getLast? = some e := by
      rw [List.getLast?_reverse, he]
      rfl
    have hYlast : (c :: t).getLast? = some e := by
      obtain ⟨v, hv, _⟩ := dropWs_decomp ((dropWs s).reverse)
      rw [hY] at hv
      rw [hv, List.getLast?_append_of_ne_nil v (by intro hc; cases hc)] at hle
      exact hle
    have hhead : ∀ d, ((c :: t).reverse).head? = some d → isWs d = false := by
      intro d hdh
      rw [List.head?_reverse, hYlast] at hdh
      cases hdh
      exact dropWs_head s e es he
    rw [hps]
    unfold pyStrip
    rw [dropWs_eq_self ((c :: t).reverse) hhead, List.reverse_reverse]
    have hYY : dropWs (c :: t) = c :: t := by
      rw [← hY]
      exact dropWs_dropWs ((dropWs s).reverse)
    rw [hYY]

/-- Scanning text with no match anywhere never cuts. -/
theorem splitRun_no_match (p : RPat) :
    ∀ (s acc : List Char) (fuel : Nat), s.length ≤ fuel →
      matchesSomewhere p s = false →
      splitRun p fuel acc s = [acc.reverse ++ s] := by
  intro s
  induction s with
  | nil =>
    intro acc fuel _ _
    cases fuel <;> simp [splitRun]
  | cons c cs ih =>
    intro acc fuel hf h
    cases fuel with
    | zero => simp at hf
    | succ f =>
      unfold matchesSomewhere at h
      have hparts := Bool.or_eq_false_iff.mp h
      cases hm : matchPatHere p (c :: cs) with
      | some r =>
        rw [hm] at hparts
        cases hparts.1
      | none =>
        have hlen : cs.length ≤ f := Nat.le_of_succ_le_succ hf
        simp only [splitRun, hm]
        rw [ih (c :: acc) f hlen hparts.2]
        simp

/-- With no match anywhere, `re.split` returns the whole text unchanged. -/
theorem reSplit_no_match (p : RPat) (s : List Char)
    (h : matchesSomewhere p s = false) : reSplit p s = [s] := by
  unfold reSplit
  rw [splitRun_no_match p s [] s.length le_rfl h]
  rfl

end MCPChatbot

namespace MCPChatbot

/-- One fold step of `_split_by_separators` on a single unmatched segment. -/
theorem split_step_no_match (pat : RPat) (x : List Char)
    (h : reSplit pat x = [x]) : (([x].map (reSplit pat)).flatten) = [x] := by
  simp [h]

/-- On text with no separator occurrence, the whole segmentation pipeline
returns the trimmed text as the single segment. -/
theorem split_by_separators_no_match (s : List Char)
    (hstr : ∀ p ∈ separators, matchesSomewhere p (pyStrip s) = false)
    (hne : pyStrip s ≠ []) :
    split_by_separators (pyStrip s) = [pyStrip s] := by
  have h1 : reSplit sepPat1 (pyStrip s) = [pyStrip s] :=
    reSplit_no_match _ _ (hstr sepPat1 (by simp [separators]))
  have h2 : reSplit sepPat2 (pyStrip s) = [pyStrip s] :=
    reSplit_no_match _ _ (hstr sepPat2 (by simp [separators]))
  have h3 : reSplit sepPat3 (pyStrip s) = [pyStrip s] :=
    reSplit_no_match _ _ (hstr sepPat3 (by simp [separators]))
  have h4 : reSplit sepPat4 (pyStrip s) = [pyStrip s] :=
    reSplit_no_match _ _ (hstr sepPat4 (by simp [separators]))
  unfold split_by_separators
  simp only [separators, List.foldl_cons, List.foldl_nil]
  rw [split_step_no_match sepPat1 _ h1, split_step_no_match sepPat2 _ h2,
    split_step_no_match sepPat3 _ h3, split_step_no_match sepPat4 _ h4]
  have hid : pyStrip (pyStrip s) = pyStrip s := pyStrip_idem s
  simp only [List.map_cons, List.map_nil, hid, List.filter]
  have : (pyStrip s).isEmpty = false := by
    cases hp : pyStrip s with
    | nil => exact absurd hp hne
    | cons a b => rfl
  rw [this]
  rfl

/-- Claim C4, as stated, is false on whitespace-only inputs: " " is a
non-empty string containing no separator keyword, yet it parses to zero tasks
and complexity COMPLEX. -/
theorem C4_counterexample :
    " " ≠ "" ∧
    containsSeparator " ".toList = false ∧
    (parse_prompt " ").tasks.length = 0 ∧
    (parse_prompt " ").complexity = PromptComplexity.COMPLEX := by
  refine ⟨by decide, by decide, by decide, by decide⟩

/-- C4 (amended): every input whose text is non-empty *after trimming* and in
which no separator pattern occurs parses to exactly one task with
`complexity == SIMPLE`. -/
theorem C4_no_separator_single (input : String)
    (hsep : containsSeparator input.toList = false)
    (hne : pyStrip input.toList ≠ []) :
    (parse_prompt input).tasks.length = 1 ∧
    (parse_prompt input).complexity = PromptComplexity.SIMPLE := by
  have hall : ∀ p ∈ separators, matchesSomewhere p input.toList = false := by
    intro p hp
    cases hms : matchesSomewhere p input.toList with
    | false => rfl
    | true =>
      have : containsSeparator input.toList = true :=
        List.any_eq_true.mpr ⟨p, hp, hms⟩
      rw [hsep] at this
      cases this
  have hstr : ∀ p ∈ separators, matchesSomewhere p (pyStrip input.toList) = false := by
    intro p hp
    cases hms : matchesSomewhere p (pyStrip input.toList) with
    | false => rfl
    | true =>
      have := matchesSomewhere_pyStrip p input.toList hms
      rw [hall p hp] at this
      cases this
  have hsplit := split_by_separators_no_match input.toList hstr hne
  have htasks : (parse_prompt input).tasks =
      extract_tasks (pyStrip input.toList) := by
    simp only [parse_prompt]
  have hlen : (parse_prompt input).tasks.length = 1 := by
    rw [htasks]
    unfold extract_tasks
    rw [hsplit]
    rfl
  refine ⟨hlen, ?_⟩
  rw [parse_prompt_complexity]
  unfold assess_complexity
  rw [if_pos hlen]

/-- Witness for C4 at "hello world": no separator occurs, the trimmed text is
non-empty, and the parse is one SIMPLE task. -/
theorem C4_witness :
    containsSeparator "hello world".toList = false ∧
    pyStrip "hello world".toList ≠ [] ∧
    ((parse_prompt "hello world").tasks.length = 1 ∧
      (parse_prompt "hello world").complexity = PromptComplexity.SIMPLE) :=
  ⟨by decide, by decide,
   C4_no_separator_single "hello world" (by decide) (by decide)⟩

end MCPChatbot
